import Mathlib

/-!
# Verification of the ethora-uptime check engine

A shallow embedding of the check execution engine of the `ethora-uptime`
repository (`src/checker.ts`, `src/runLock.ts`, `src/server.ts`,
`src/journeyRunner.ts`) together with proofs about the embedded code.

Effectful behaviour (network responses, socket events, XMPP stanzas,
timers) is represented by explicit *oracle* inputs: an oracle value
describes what the environment did during one execution, and each
embedded function is a pure, total function of its configuration and its
oracle.  A JavaScript `throw`/rejected promise is modelled as
`Except.error` carrying a `JsError`; a `try { .. } catch` is a `match` on
that `Except`.
-/

namespace EthoraUptime

/-- Model of a JavaScript `Error` value (plus the ad-hoc `code` property the
repository attaches via `Object.assign`). -/
structure JsError where
  message : String
  name : Option String := none
  code : Option String := none
  deriving Repr, DecidableEq

/-! ## JavaScript string operations

The JavaScript string methods the source uses (`trim`, `startsWith`,
`includes`, `toLowerCase`, `split`) are modelled on the character list of
the string, so that every definition computes by kernel reduction. -/

/-- Prefix test on character lists. -/
def charsStartsWith : List Char → List Char → Bool
  | _, [] => true
  | [], _ :: _ => false
  | c :: cs, p :: ps => c == p && charsStartsWith cs ps

/-- Substring test on character lists (`pat` occurs somewhere in the list). -/
def charsContains (pat : List Char) : List Char → Bool
  | [] => charsStartsWith [] pat
  | c :: rest => charsStartsWith (c :: rest) pat || charsContains pat rest

/-- JavaScript `s.startsWith(pre)`. -/
def jsStartsWith (s pre : String) : Bool :=
  charsStartsWith s.data pre.data

/-- JavaScript `s.includes(pat)`. -/
def jsIncludes (s pat : String) : Bool :=
  charsContains pat.data s.data

/-- JavaScript `s.toLowerCase()` (ASCII case folding, which covers every
pattern the source compares against). -/
def jsToLower (s : String) : String :=
  ⟨s.data.map Char.toLower⟩

/-- JavaScript `s.trim()`. -/
def jsTrim (s : String) : String :=
  ⟨((s.data.dropWhile Char.isWhitespace).reverse.dropWhile Char.isWhitespace).reverse⟩

/-- JavaScript `s.split(sep)` for a one-character separator. -/
def splitOnChar (sep : Char) : List Char → List (List Char)
  | [] => [[]]
  | c :: rest =>
    let r := splitOnChar sep rest
    if c == sep then [] :: r
    else
      match r with
      | [] => [[c]]
      | h :: t => (c :: h) :: t

/-- JavaScript `path.split('.')` as strings. -/
def jsSplitDot (path : String) : List String :=
  (splitOnChar '.' path.data).map (fun cs => String.mk cs)

/-! ## JSON values

Model of the JavaScript values produced by `JSON.parse`.  JavaScript
`undefined` is *not* a JSON value; where the source can produce
`undefined` (missing property, `getJsonPath` miss) we use `Option JsVal`
with `none` standing for `undefined`. -/

inductive JsVal where
  | null : JsVal
  | bool : Bool → JsVal
  | num : Int → JsVal
  | str : String → JsVal
  | arr : List JsVal → JsVal
  | obj : List (String × JsVal) → JsVal
  deriving Repr

/-- Property access `cur[p]` on a parsed JSON value: field lookup on objects,
numeric-string indexing on arrays, `undefined` otherwise. -/
def jsIndex : JsVal → String → Option JsVal
  | .obj fields, k => (fields.find? (fun f => f.1 == k)).map (·.2)
  | .arr xs, k => k.toNat? >>= fun i => xs.get? i
  | _, _ => none

/-- `getJsonPath` from `src/checker.ts`: split the dot path, drop empty
segments, and walk, short-circuiting to `undefined` (`none`) when the current
value is `null`/`undefined`. -/
def getJsonPath (obj : JsVal) (path : String) : Option JsVal :=
  go ((jsSplitDot path).filter (fun p => p ≠ "")) (some obj)
where
  go : List String → Option JsVal → Option JsVal
    | _, none => none
    | parts, some JsVal.null => if parts.isEmpty then some JsVal.null else none
    | [], cur => cur
    | p :: rest, some cur => go rest (jsIndex cur p)

/-- JavaScript `String(value)` coercion as used by the `equals` rule, on the
values `getJsonPath` can return. -/
def jsToString : Option JsVal → String
  | none => "undefined"
  | some .null => "null"
  | some (.bool true) => "true"
  | some (.bool false) => "false"
  | some (.num n) => toString n
  | some (.str s) => s
  | some (.arr _) => "[array]"
  | some (.obj _) => "[object Object]"

/-! ## Check configuration (from `src/config.ts` / `src/checker.ts`) -/

/-- An expectation rule (`StatusRule` in `src/config.ts`, extended with the
`captureAs` field used by `src/checker.ts`). -/
inductive ExpectRule where
  | status_code (expected : List Int)
  | json (path : String) (existsReq : Bool) (equals : Option String)
      (captureAs : Option String)
  deriving Repr, DecidableEq

/-- Check definition; `type` is kept as a raw string because the source
dispatches on a string field and must handle unknown values. -/
structure CheckConfig where
  id : String
  type : String
  url : Option String := none
  timeoutMs : Nat := 5000
  expect : List ExpectRule := []
  deriving Repr, DecidableEq

/-- The `details` record a check run can carry.  Only the fields the source
writes (and the spec talks about) are modelled; `captures` maps capture keys
to written values, where a value `none` would be JavaScript `undefined`. -/
structure Details where
  statusExpected : Option (List Int) := none
  jsonParse : Option String := none
  captures : Option (List (String × Option JsVal)) := none
  received : Option Bool := none
  errorDetail : Option String := none
  deriving Repr

/-- `CheckRunResult` from `src/checker.ts`.  Durations are not modelled
(wall-clock time is outside the embedding) and are fixed to `0`. -/
structure CheckRunResult where
  ok : Bool
  statusCode : Option Int := none
  durationMs : Nat := 0
  errorText : Option String := none
  details : Option Details := none
  deriving Repr

/-! ## RunLock (`src/runLock.ts`)

The in-memory lock is a set of in-flight keys, modelled as a `List String`
without duplicates for the keys of interest.  The guarded operation `fn` is
an oracle value: either it resolves with a value or rejects with an error.
`withCheckLock` returns the outcome, the final lock state, and the number of
times `fn` was invoked. -/

/-- Outcome of awaiting a JavaScript promise-returning function. -/
inductive FnOut (T : Type) where
  | resolves (v : T)
  | rejects (e : JsError)
  deriving Repr, DecidableEq

/-- The error thrown by `withCheckLock` when the key is already held. -/
def conflictError (key : String) : JsError :=
  { message := "CHECK_ALREADY_RUNNING:" ++ key, code := some "CHECK_ALREADY_RUNNING" }

/-- `withCheckLock` from `src/runLock.ts`: throw `CHECK_ALREADY_RUNNING` if
the key is in flight; otherwise add the key, run `fn`, and delete the key in
a `finally`, propagating `fn`'s outcome.  Result: (outcome, final in-flight
set, number of invocations of `fn`). -/
def withCheckLock {T : Type} (inFlight : List String) (key : String)
    (fn : FnOut T) : FnOut T × List String × Nat :=
  if inFlight.contains key then
    (.rejects (conflictError key), inFlight, 0)
  else
    (fn, (key :: inFlight).erase key, 1)

/-- `isCheckLocked` from `src/runLock.ts`. -/
def isCheckLocked (inFlight : List String) (key : String) : Bool :=
  inFlight.contains key

/-! ## HttpCheckStrategy (`runHttpCheck` in `src/checker.ts`)

The network is an oracle: either `fetch` settled with a response (whose body,
if the code parses it, yields `bodyJson`, with `none` meaning `JSON.parse`
threw), or the whole `try` body threw (transport error, abort, body read
failure). -/

/-- What the environment did during one `runHttpCheck` execution. -/
inductive HttpOutcome where
  | response (status : Int) (bodyJson : Option JsVal)
  | thrown (name : Option String) (msg : String)
  deriving Repr

/-- Is this an `ExpectRule.json` rule?  (`expect.filter((r) => r.type === 'json')`) -/
def isJsonRule : ExpectRule → Bool
  | .json _ _ _ _ => true
  | _ => false

/-- JavaScript object assignment `m[k] = v`: overwrite in place or append. -/
def setAssoc {α : Type} : List (String × α) → String → α → List (String × α)
  | [], k, v => [(k, v)]
  | (k', v') :: rest, k, v =>
    if k' == k then (k, v) :: rest else (k', v') :: setAssoc rest k v

/-- State threaded through the `for (const rule of expect)` loop. -/
structure HttpLoopState where
  ok : Bool
  details : Details
  deriving Repr

/-- `value === undefined || value === null` on a `getJsonPath` result. -/
def isNullish : Option JsVal → Bool
  | none => true
  | some .null => true
  | some _ => false

/-- One iteration of the expectation-rule loop in `runHttpCheck`.
`parsed`/`jsonParsedOk` are the shared (at most one) parse of the body. -/
def httpRuleStep (statusCode : Int) (parsed : Option JsVal) (jsonParsedOk : Bool)
    (s : HttpLoopState) (rule : ExpectRule) : HttpLoopState :=
  match rule with
  | .status_code expected =>
    { ok := s.ok && expected.contains statusCode,
      details := { s.details with statusExpected := some expected } }
  | .json path existsReq equals captureAs =>
    if !jsonParsedOk then
      -- Only a rule asserting something (`exists`/`equals`) fails the check;
      -- a capture-only rule does not, and `continue` skips the capture write.
      { ok := if existsReq || equals.isSome then false else s.ok,
        details := { s.details with jsonParse := some "failed" } }
    else
      let value : Option JsVal :=
        match parsed with
        | some j => getJsonPath j path
        | none => none
      let ok1 := if existsReq then s.ok && !(isNullish value) else s.ok
      let ok2 := match equals with
        | some q => ok1 && (jsToString value == q)
        | none => ok1
      let details :=
        match captureAs with
        | some k =>
          if k ≠ "" then
            let caps := setAssoc (s.details.captures.getD []) k (some (value.getD JsVal.null))
            { s.details with captures := some caps }
          else s.details
        | none => s.details
      { ok := ok2, details := details }

/-- The `try`-body of `runHttpCheck` once a `url` is present: the thrown case
is the rejected promise, the response case is the pure rule evaluation.
Returns the result together with the number of `JSON.parse` calls. -/
def runHttpTry (check : CheckConfig) (o : HttpOutcome) :
    Except JsError (CheckRunResult × Nat) :=
  match o with
  | .thrown name msg => .error { message := msg, name := name }
  | .response status bodyJson =>
    let jsonRules := check.expect.filter isJsonRule
    let parseCalls := if jsonRules.isEmpty then 0 else 1
    let jsonParsedOk := if jsonRules.isEmpty then false else bodyJson.isSome
    let respOk : Bool := (200 ≤ status) && (status < 300)
    let init : HttpLoopState := { ok := respOk, details := {} }
    let final := check.expect.foldl (httpRuleStep status bodyJson jsonParsedOk) init
    .ok ({ ok := final.ok, statusCode := some status, durationMs := 0,
           details := some final.details }, parseCalls)

/-- The `catch` clause of `runHttpCheck`: `AbortError` is reported as
`"timeout"`, anything else by its message. -/
def httpCatch (e : JsError) : CheckRunResult :=
  { ok := false, durationMs := 0,
    errorText := some (if e.name == some "AbortError" then "timeout" else e.message) }

/-- `runHttpCheck` from `src/checker.ts` (result, number of `JSON.parse` calls). -/
def runHttpCheckFull (check : CheckConfig) (o : HttpOutcome) : CheckRunResult × Nat :=
  match check.url with
  | none => ({ ok := false, durationMs := 0, errorText := some "missing url for http check" }, 0)
  | some u =>
    if u = "" then
      ({ ok := false, durationMs := 0, errorText := some "missing url for http check" }, 0)
    else
      match runHttpTry check o with
      | .ok r => r
      | .error e => (httpCatch e, 0)

/-- `runHttpCheck` (just the result). -/
def runHttpCheck (check : CheckConfig) (o : HttpOutcome) : CheckRunResult :=
  (runHttpCheckFull check o).1

/-! ## WebSocketCheckStrategy (`runWssCheck` in `src/checker.ts`)

Once a socket has been constructed, the settling event is the oracle:
whichever of `open`, `error`, or the timeout timer fires first (the
`settled` flag makes the first one win).  The second component records
whether `ws.close()` was called on that branch.

Separately from these settling events, `new WebSocket(url, …)` itself can
throw **synchronously** when the url is malformed or has a wrong scheme
(the client wraps the `new URL` failure).  A synchronous throw inside the
`Promise` executor rejects the promise, and `runWssCheck` has no `catch`
anywhere, so on that path the strategy produces no `CheckRunResult` at
all — the rejection escapes.  That mode is modelled by the `ctorThrow`
input of `runWssCheckE` below, not by `WssEvent`. -/

/-- First settling event of a wss check whose socket was successfully
constructed.  (The synchronous constructor throw does not settle the
promise with a result and is modelled in `runWssCheckE`.) -/
inductive WssEvent where
  | opened
  | errorEvent (msg : String)
  | timeoutFired
  deriving Repr, DecidableEq

/-- The post-construction behaviour of `runWssCheck` from `src/checker.ts`:
(result, whether `ws.close()` was invoked before settling).  Note the
`error` handler clears the timer and settles but does not call
`ws.close()`.  The full strategy, including the uncaught synchronous
constructor throw, is `runWssCheckE`. -/
def runWssCheckFull (check : CheckConfig) (ev : WssEvent) : CheckRunResult × Bool :=
  match check.url with
  | none => ({ ok := false, durationMs := 0, errorText := some "missing url for wss check" }, false)
  | some u =>
    if u = "" then
      ({ ok := false, durationMs := 0, errorText := some "missing url for wss check" }, false)
    else
      match ev with
      | .opened => ({ ok := true, durationMs := 0 }, true)
      | .errorEvent msg => ({ ok := false, durationMs := 0, errorText := some msg }, false)
      | .timeoutFired => ({ ok := false, durationMs := 0, errorText := some "timeout" }, true)

/-- `runWssCheck` (just the result) on the post-construction branches. -/
def runWssCheck (check : CheckConfig) (ev : WssEvent) : CheckRunResult :=
  (runWssCheckFull check ev).1

/-- `runWssCheck` from `src/checker.ts`, faithful to every exit mode.
`ctorThrow = some msg` is the mode in which `new WebSocket(url, …)` threw
synchronously (malformed/wrong-scheme url): the throw happens inside the
`Promise` executor, which rejects the awaited promise, and neither
`runWssCheck` nor its caller has a `catch` — so no result and no close flag
exist on that path, only the escaping rejection.  (The already-armed timeout
timer later fires into a settled promise: its `ws.close()` attempt hits a
TDZ reference error swallowed by `try {} catch {}`, and its `finish` is
ignored.)  The missing-url guard runs before the promise is created. -/
def runWssCheckE (check : CheckConfig) (ctorThrow : Option String) (ev : WssEvent) :
    Except JsError (CheckRunResult × Bool) :=
  match check.url with
  | none =>
    .ok ({ ok := false, durationMs := 0, errorText := some "missing url for wss check" }, false)
  | some u =>
    if u = "" then
      .ok ({ ok := false, durationMs := 0, errorText := some "missing url for wss check" }, false)
    else
      match ctorThrow with
      | some msg => .error { message := msg }
      | none => .ok (runWssCheckFull check ev)

/-! ## ChatRoomEchoStrategy (`runXmppMucEchoCheck` in `src/checker.ts`) -/

/-- Settled value of an `ejabberdPostJson` call (that helper always resolves:
request errors resolve with `ok:false`).  `text` is the textual form of the
response data as the source stringifies it. -/
structure ApiResp where
  ok : Bool
  status : Int
  text : String
  deriving Repr, DecidableEq

/-- The "account already exists" test in `ensureXmppUser`: conflict status or
one of the message patterns, case-insensitively. -/
def looksLikeAlreadyExists (reg : ApiResp) : Bool :=
  reg.status == 409
    || jsIncludes (jsToLower reg.text) "conflict"
    || jsIncludes (jsToLower reg.text) "already"
    || jsIncludes (jsToLower reg.text) "exists"

/-- How `ensureXmppUser` completed provisioning. -/
inductive EnsureVia where
  | register
  | change_password
  deriving Repr, DecidableEq

/-- `ensureXmppUser` from `src/checker.ts`, with the ejabberd API responses as
oracle inputs.  Returns the outcome (`throw` as `Except.error`) and the list
of ejabberd API endpoints called, in order. -/
def ensureXmppUser (user : String) (reg ch : ApiResp) :
    Except JsError EnsureVia × List String :=
  if reg.ok then (.ok .register, ["/register"])
  else if !(looksLikeAlreadyExists reg) then
    (.error { message := "XMPP_REGISTER_FAILED(" ++ user ++ "): status=" ++
        toString reg.status ++ " data=" ++ reg.text }, ["/register"])
  else if ch.ok then (.ok .change_password, ["/register", "/change_password"])
  else
    (.error { message := "XMPP_CHANGE_PASSWORD_FAILED(" ++ user ++ "): status=" ++
        toString ch.status ++ " data=" ++ ch.text }, ["/register", "/change_password"])

/-- How one `joinRoomByWs` attempt settled: a connection-level `error` event,
a presence stanza of type `error` (policy rejection), a matching presence
from the room (success), or the join timer firing with no presence seen. -/
inductive JoinOutcome where
  | errorEvent (msg : String)
  | presenceError (stanzaText : String)
  | joined
  | timedOutNoPresence
  deriving Repr, DecidableEq

/-- Result of `joinRoomByWs` (`src/checker.ts`): the settled promise plus
whether the XMPP session is still connected when the promise settles.
Transcribed branch by branch:
* `error` event: handler stops the client, then rejects — session closed;
* presence of type `error`: handler runs `cleanup()` (listener + timer only)
  and rejects **without** `xmpp.stop()` — session left connected;
* matching presence: resolves with the connected client;
* timeout: handler stops the client, then rejects — session closed. -/
def joinRoomByWs (stage : String) (o : JoinOutcome) :
    Except JsError Unit × Bool :=
  match o with
  | .errorEvent msg => (.error { message := msg }, false)
  | .presenceError t =>
    (.error { message := "XMPP_JOIN_ERROR(" ++ stage ++ "):" ++ t }, true)
  | .joined => (.ok (), true)
  | .timedOutNoPresence =>
    (.error { message := "XMPP_JOIN_ROOM_TIMEOUT(" ++ stage ++ ")" }, false)

/-- Environment behaviour for one `runXmppMucEchoCheck` execution. -/
structure EchoOracle where
  /-- whether `ETHORA_XMPP_ADMIN_PASSWORD` is set (nonempty). -/
  adminPasswordSet : Bool
  reg1 : ApiResp
  ch1 : ApiResp
  reg2 : ApiResp
  ch2 : ApiResp
  adminJoin : JoinOutcome
  user2Join : JoinOutcome
  user1Join : JoinOutcome
  /-- whether the marker message reached user2 before the echo deadline. -/
  echoReceived : Bool
  deriving Repr, DecidableEq

/-- The failure result built by the `catch` clause of `runXmppMucEchoCheck`. -/
def echoFail (e : JsError) : CheckRunResult :=
  { ok := false, durationMs := 0, errorText := some e.message,
    details := some { received := some false, errorDetail := some e.message } }

/-- `runXmppMucEchoCheck` from `src/checker.ts`.  Second component: every
XMPP session the execution opened, as `(join stage, closed again before the
check returned)`.  A session opened inside a `joinRoomByWs` call whose
promise rejected is unreachable from the caller's `finally` block (the
`adminXmpp`/`xmpp1`/`xmpp2` variable was never assigned), so it is closed at
return only if `joinRoomByWs` itself stopped it. -/
def runXmppMucEchoCheckFull (o : EchoOracle) : CheckRunResult × List (String × Bool) :=
  if !o.adminPasswordSet then
    ({ ok := false, durationMs := 0,
       errorText := some "skipped: Missing env: ETHORA_XMPP_ADMIN_PASSWORD" }, [])
  else
    match (ensureXmppUser "uptime_health_u1" o.reg1 o.ch1).1 with
    | .error e => (echoFail e, [])
    | .ok _ =>
    match (ensureXmppUser "uptime_health_u2" o.reg2 o.ch2).1 with
    | .error e => (echoFail e, [])
    | .ok _ =>
    -- `/destroy_room` via ejabberdPostJson always resolves and its result is
    -- ignored, so it does not branch.
    let adminJ := joinRoomByWs "admin_join_create_room" o.adminJoin
    match adminJ.1 with
    | .error e => (echoFail e, [("admin_join_create_room", !adminJ.2)])
    | .ok _ =>
    let u2J := joinRoomByWs "user2_join" o.user2Join
    match u2J.1 with
    | .error e =>
      (echoFail e, [("admin_join_create_room", true), ("user2_join", !u2J.2)])
    | .ok _ =>
    let u1J := joinRoomByWs "user1_join" o.user1Join
    match u1J.1 with
    | .error e =>
      (echoFail e, [("admin_join_create_room", true), ("user2_join", true),
                    ("user1_join", !u1J.2)])
    | .ok _ =>
    let allClosed := [("admin_join_create_room", true), ("user2_join", true),
                      ("user1_join", true)]
    if o.echoReceived then
      ({ ok := true, durationMs := 0, details := some { received := some true } }, allClosed)
    else
      (echoFail { message := "XMPP_ECHO_TIMEOUT" }, allClosed)

/-- `runXmppMucEchoCheck` (just the result). -/
def runXmppMucEchoCheck (o : EchoOracle) : CheckRunResult :=
  (runXmppMucEchoCheckFull o).1

/-! ## JourneyOrchestrator (`runJourneyAdvanced` in `src/journeyRunner.ts`)

The advanced journey is a long `try` block pushing step names into
`details.steps`.  We model it in a small monad threading the step list and
an `Except` for thrown errors; each platform HTTP step's outcome (the
response, including the `!resp.ok`/missing-field throws it induces) is an
oracle field of type `Except JsError _`. -/

/-- Step-logging exception monad: state is the `details.steps` name list,
which survives a throw (the `catch` clause reads it). -/
def JourneyM (α : Type) : Type :=
  List String → Except JsError α × List String

instance : Monad JourneyM where
  pure a := fun s => (.ok a, s)
  bind x f := fun s =>
    match x s with
    | (.ok a, s') => f a s'
    | (.error e, s') => (.error e, s')

/-- `step(name)`: push a step name. -/
def stepJ (name : String) : JourneyM Unit := fun s => (.ok (), s ++ [name])

/-- Await a promise / run a statement whose outcome the oracle provides. -/
def liftE {α : Type} (e : Except JsError α) : JourneyM α := fun s => (e, s)

/-- `throw new Error(msg)`. -/
def throwJ {α : Type} (msg : String) : JourneyM α :=
  fun s => (.error { message := msg }, s)

/-- One ephemeral journey user as returned by the v2 login step. -/
structure AdvUser where
  id : String
  token : String
  xmppUsername : String
  xmppPassword : String

/-- `joinRoomByWs` from `src/journeyRunner.ts` (same shape as the checker
variant: the presence-`error` branch rejects after `cleanup()` without
stopping the session; `error` events and timeouts stop it first). -/
def joinRoomByWsJourney (stage : String) (o : JoinOutcome) :
    Except JsError Unit × Bool :=
  match o with
  | .errorEvent msg => (.error { message := msg }, false)
  | .presenceError t =>
    (.error { message := "XMPP_JOIN_ERROR(" ++ stage ++ "):" ++ t }, true)
  | .joined => (.ok (), true)
  | .timedOutNoPresence =>
    (.error { message := "XMPP_JOIN_ROOM_TIMEOUT(" ++ stage ++ ")" }, false)

/-- Environment behaviour for one advanced journey run.  Each `Except`
field is the outcome of the corresponding platform HTTP step, already
folded with the `if (!resp.ok) throw` / missing-field throws the source
derives from the raw response. -/
structure AdvOracle where
  getBaseConfig : Except JsError String
  loginAdmin : Except JsError String
  createApp : Except JsError (String × String)
  usersCount : Nat
  signup : Nat → Except JsError Unit
  login : Nat → Except JsError AdvUser
  createTestChat : Except JsError String
  createValidationChat : Except JsError String
  addMembersTest : Except JsError Unit
  addMembersValidation : Except JsError Unit
  /-- `getXmppEnvFromProcess()` (throws `Missing env: …` if unset). -/
  xmppEnv : Except JsError Unit
  bobJoinTest : JoinOutcome
  aliceJoinTest : JoinOutcome
  /-- marker observed by Bob in the test room before the deadline. -/
  testMsgReceived : Bool
  bobJoinValidation : JoinOutcome
  aliceJoinValidation : JoinOutcome
  validationMsgReceived : Bool
  /-- upload response (`!ok` / missing `results[0].location` throw). -/
  upload : Except JsError String
  mediaMsgReceived : Bool
  fileAccess : Except JsError Unit
  removeBob : Except JsError Unit
  /-- Bob's rejoin attempt after removal. -/
  bobRejoin : JoinOutcome

/-- The signup+login loop (`for (let i = 0; i < usersCount; i++)`),
structurally recursive on the remaining count. -/
def advUsersGo (o : AdvOracle) : Nat → Nat → JourneyM (List AdvUser)
  | 0, _ => pure []
  | fuel + 1, i => do
    stepJ "signup_user_v2"
    let _ ← liftE (o.signup i)
    stepJ "login_user_v2"
    let u ← liftE (o.login i)
    let rest ← advUsersGo o fuel (i + 1)
    pure (u :: rest)

/-- The `bob_join_denied` negative test, transcribed statement by statement:

```
try {
  const bobRejoin = await joinRoomByWs(..., 'bob_rejoin')
  try { await bobRejoin.stop() } catch {}
  throw new Error('Bob was able to rejoin after removal')
} catch (_e) {
  // Expected: join should fail
}
```

The `throw` for a successful rejoin sits *inside* the `try`, so the
`catch (_e)` swallows it exactly like an expected join failure: this step
never propagates an error, whatever the rejoin outcome. -/
def bobJoinDeniedStep (rejoin : JoinOutcome) : JourneyM Unit :=
  let tryBody : Except JsError Unit :=
    match (joinRoomByWsJourney "bob_rejoin" rejoin).1 with
    | .ok _ => .error { message := "Bob was able to rejoin after removal" }
    | .error e => .error e
  match tryBody with
  | .ok u => pure u
  | .error _ => pure ()

/-- The `try` body of `runJourneyAdvanced`, step by step.  The observer
side-channel block is wrapped in its own `try {} catch {}` in the source and
swallows every failure without affecting control flow, so it contributes
nothing to the modelled state. -/
def runJourneyAdvancedBody (o : AdvOracle) : JourneyM Unit := do
  stepJ "get_base_app_config"
  let _ ← liftE o.getBaseConfig
  stepJ "login_admin_user"
  let _ ← liftE o.loginAdmin
  stepJ "create_app"
  let _ ← liftE o.createApp
  let users ← advUsersGo o (max 3 o.usersCount) 0
  if users.length < 3 then throwJ "advanced journey requires at least 3 users" else pure ()
  stepJ "create_chat_test"
  let _ ← liftE o.createTestChat
  stepJ "create_chat_validation"
  let _ ← liftE o.createValidationChat
  stepJ "add_members_test"
  let _ ← liftE o.addMembersTest
  stepJ "add_members_validation"
  let _ ← liftE o.addMembersValidation
  let _ ← liftE o.xmppEnv
  stepJ "xmpp_join_test"
  let _ ← liftE (joinRoomByWsJourney "bob_test" o.bobJoinTest).1
  let _ ← liftE (joinRoomByWsJourney "alice_test" o.aliceJoinTest).1
  stepJ "send_test_message"
  if o.testMsgReceived then pure () else throwJ "XMPP_MESSAGE_TIMEOUT"
  stepJ "xmpp_join_validation"
  let _ ← liftE (joinRoomByWsJourney "bob_validation" o.bobJoinValidation).1
  let _ ← liftE (joinRoomByWsJourney "alice_validation" o.aliceJoinValidation).1
  stepJ "send_validation_message"
  if o.validationMsgReceived then pure () else throwJ "XMPP_MESSAGE_TIMEOUT"
  stepJ "await_media_message"
  stepJ "upload_file"
  let _ ← liftE o.upload
  if o.mediaMsgReceived then pure () else throwJ "XMPP_MESSAGE_TIMEOUT"
  stepJ "file_access"
  let _ ← liftE o.fileAccess
  stepJ "remove_bob_from_test"
  let _ ← liftE o.removeBob
  stepJ "bob_join_denied"
  bobJoinDeniedStep o.bobRejoin
  stepJ "send_post_removal_message"
  stepJ "ok"

/-- Outcome of one advanced journey run: `ok`, the step-name trace, and the
captured error message.  The `finally` cleanup block swallows all its own
failures and cannot change the returned result, so it is not part of the
result model. -/
structure JourneyResultM where
  ok : Bool
  steps : List String
  errorMsg : Option String
  deriving Repr, DecidableEq

/-- `runJourneyAdvanced`: run the body; the `catch` clause records the
`error` step and returns `ok:false` with the message. -/
def runJourneyAdvancedM (o : AdvOracle) : JourneyResultM :=
  match runJourneyAdvancedBody o [] with
  | (.ok _, steps) => { ok := true, steps := steps, errorMsg := none }
  | (.error e, steps) =>
    { ok := false, steps := steps ++ ["error"], errorMsg := some e.message }

/-! ## Journey check strategy (`runJourneyCheck` in `src/checker.ts`)

At the executor level only the settled outcome of
`Promise.race([runJourney(getJourneyEnvFromProcess(), …), timeout])` matters:
`runJourney` itself always resolves with a `JourneyResult`, while
`getJourneyEnvFromProcess` can throw `Missing env: NAME` and the race timer
can reject with `Error('timeout')`. -/

/-- Settled outcome of the raced journey invocation. -/
inductive JourneyOutcome where
  | completed (ok : Bool)
  | envMissing (name : String)
  | raceTimeout
  deriving Repr, DecidableEq

/-- The `try` body of `runJourneyCheck`. -/
def journeyTry (o : JourneyOutcome) : Except JsError CheckRunResult :=
  match o with
  | .completed ok => .ok { ok := ok, durationMs := 0 }
  | .envMissing n => .error { message := "Missing env: " ++ n }
  | .raceTimeout => .error { message := "timeout" }

/-- `runJourneyCheck` from `src/checker.ts`: a thrown `Missing env:` error is
downgraded to a `skipped:` failure (WARN in the rollup), every other thrown
error becomes a plain failure. -/
def runJourneyCheck (o : JourneyOutcome) : CheckRunResult :=
  match journeyTry o with
  | .ok r => r
  | .error e =>
    if jsStartsWith e.message "Missing env:" then
      { ok := false, durationMs := 0, errorText := some ("skipped: " ++ e.message) }
    else
      { ok := false, durationMs := 0, errorText := some e.message }

/-! ## CheckExecutor (`runCheckWithOpts` in `src/checker.ts`) -/

/-- Environment behaviour for one executor invocation: one oracle per
strategy (the dispatch consults only the fields matching the check's type).
`wssCtorThrow = some msg` means `new WebSocket(url, …)` threw synchronously
(invalid url); `none` means the socket was constructed and `wssO` is its
settling event. -/
structure WorldOracle where
  httpO : HttpOutcome
  wssCtorThrow : Option String := none
  wssO : WssEvent
  journeyO : JourneyOutcome
  echoO : EchoOracle

/-- `runCheckWithOpts` restricted to worlds in which every strategy's promise
settles with a result (in particular the WebSocket constructor did not
throw): dispatch on the `type` string; unknown types produce the
`Unknown check type` failure result.  The faithful executor, including the
uncaught wss rejection, is `runCheckWithOptsE` below; the two agree whenever
`wssCtorThrow = none` (`runCheckWithOptsE_agrees`). -/
def runCheckWithOpts (check : CheckConfig) (w : WorldOracle) : CheckRunResult :=
  if check.type = "http" then runHttpCheck check w.httpO
  else if check.type = "wss" then runWssCheck check w.wssO
  else if check.type = "journey" then runJourneyCheck w.journeyO
  else if check.type = "xmpp_muc_echo" then runXmppMucEchoCheck w.echoO
  else { ok := false, durationMs := 0,
         errorText := some ("Unknown check type: " ++ check.type) }

/-- `runCheck` from `src/checker.ts` (delegates with default options). -/
def runCheck (check : CheckConfig) (w : WorldOracle) : CheckRunResult :=
  runCheckWithOpts check w

/-- The executor as awaited by its callers, `Except`-valued.  The http,
journey and echo strategies end in a universal `catch` and always resolve
with a result; the wss strategy has no `catch`, so its synchronous
constructor throw rejects the promise the executor returns — nothing
between `new WebSocket` and the scheduler/manual-trigger `await` handles
that rejection. -/
def runCheckWithOptsE (check : CheckConfig) (w : WorldOracle) :
    Except JsError CheckRunResult :=
  if check.type = "http" then .ok (runHttpCheck check w.httpO)
  else if check.type = "wss" then
    match runWssCheckE check w.wssCtorThrow w.wssO with
    | .ok r => .ok r.1
    | .error e => .error e
  else if check.type = "journey" then .ok (runJourneyCheck w.journeyO)
  else if check.type = "xmpp_muc_echo" then .ok (runXmppMucEchoCheck w.echoO)
  else .ok { ok := false, durationMs := 0,
             errorText := some ("Unknown check type: " ++ check.type) }

/-! ## Manual trigger (`POST /api/run-check` handler in `src/server.ts`) -/

/-- HTTP response of the manual-trigger endpoint. -/
inductive ApiResponse where
  | unprocessable (err : String)
  | notFound (err : String)
  | okJson (checkId : String) (run : CheckRunResult)
  deriving Repr

/-- `checkMap.get(checkId)` over the map built in `main()`. -/
def lookupCheck (checkMap : List (String × CheckConfig)) (id : String) :
    Option CheckConfig :=
  (checkMap.find? (fun p => p.1 == id)).map (·.2)

/-- The `POST /api/run-check` handler from `src/server.ts`.  Inputs: the
check map, the request-body `checkId`, the current RunLock in-flight set,
and the world oracle.  Output: the response, the in-flight set after the
request, the number of `insert into check_runs` writes, and the number of
check executions.  The handler validates the id, looks the check up, and
calls `runCheck` directly — it never reads or writes the RunLock state. -/
def handleRunCheck (checkMap : List (String × CheckConfig)) (bodyCheckId : String)
    (inFlight : List String) (w : WorldOracle) :
    ApiResponse × List String × Nat × Nat :=
  let checkId := jsTrim bodyCheckId
  if checkId = "" then (.unprocessable "checkId is required", inFlight, 0, 0)
  else
    match lookupCheck checkMap checkId with
    | none => (.notFound "check not found", inFlight, 0, 0)
    | some chk =>
      -- disabled checks are not scheduled, but can still be run manually
      let run := runCheck chk w
      (.okJson checkId run, inFlight, 1, 1)

/-! ## StatusAggregator (`GET /api/summary` handler in `src/server.ts`) -/

/-- The most recent stored run of a check, as read back from `check_runs`. -/
structure StoredRun where
  ok : Bool
  errorText : Option String
  deriving Repr, DecidableEq

/-- One check of an instance in the summary query: its `meta.severity`
value (if any) and its most recent stored run (if any). -/
structure SummaryCheckRow where
  metaSeverity : Option String
  last : Option StoredRun
  deriving Repr, DecidableEq

/-- `meta?.severity || 'critical'` (JavaScript `||`: the empty string is
falsy and also falls back). -/
def resolveSeverity (metaSeverity : Option String) : String :=
  match metaSeverity with
  | some s => if s = "" then "critical" else s
  | none => "critical"

/-- `typeof row.error_text === 'string' && row.error_text.startsWith('skipped:')`. -/
def errTextSkipped : Option String → Bool
  | some t => jsStartsWith t "skipped:"
  | none => false

/-- One iteration of the per-instance loop of the summary handler, updating
`(hasFail, hasWarn)` for one check. -/
def summaryStep (acc : Bool × Bool) (r : SummaryCheckRow) : Bool × Bool :=
  let isOptional := resolveSeverity r.metaSeverity == "optional"
  match r.last with
  | none =>
    -- No data yet -> warn, but never hard-fail the instance
    (acc.1, acc.2 || !isOptional)
  | some run =>
    if !run.ok then
      if isOptional then acc
      else if errTextSkipped run.errorText then (acc.1, true)
      else (true, acc.2)
    else acc

/-- The per-instance loop of the summary handler, folding `(hasFail, hasWarn)`
over the instance's checks. -/
def summaryFold (rows : List SummaryCheckRow) : Bool × Bool :=
  rows.foldl summaryStep (false, false)

/-- `status = hasFail ? 'red' : hasWarn ? 'amber' : 'green'`. -/
def instanceStatus (rows : List SummaryCheckRow) : String :=
  let folded := summaryFold rows
  if folded.1 then "red" else if folded.2 then "amber" else "green"

/-! ## Spec-side rollup definition

Written from the specification's words ("StatusAggregator", §4.8), to be
compared with `instanceStatus` above, which is transcribed from the code. -/

/-- What one check contributes to the rollup, per the spec. -/
inductive Contribution where
  | fail
  | warn
  | nothing
  deriving Repr, DecidableEq

/-- Spec §4.8: no result yet contributes warn unless optional; an `ok:false`
result contributes nothing if optional, warn if the error text marks a skip,
fail otherwise; an `ok:true` result contributes nothing. -/
def specContribution (r : SummaryCheckRow) : Contribution :=
  let isOptional := resolveSeverity r.metaSeverity == "optional"
  match r.last with
  | none => if isOptional then .nothing else .warn
  | some run =>
    if run.ok then .nothing
    else if isOptional then .nothing
    else if errTextSkipped run.errorText then .warn
    else .fail

/-- Spec §4.8: red if any check contributed fail, else amber if any
contributed warn, else green. -/
def specRollupStatus (rows : List SummaryCheckRow) : String :=
  if rows.any (fun r => specContribution r == .fail) then "red"
  else if rows.any (fun r => specContribution r == .warn) then "amber"
  else "green"

/-! ## Concrete fixtures

Concrete configurations and oracles used to evaluate the embedded code at
specific inputs (counterexamples and witnesses). -/

/-- A json expectation rule filtered down to capture-only form. -/
def isCaptureOnlyJson : ExpectRule → Bool
  | .json _ false none _ => true
  | _ => false

/-- Assoc-list lookup (JavaScript `m[k]` read on the captures object). -/
def lookupAssoc {α : Type} (l : List (String × α)) (k : String) : Option α :=
  (l.find? (fun p => p.1 == k)).map (·.2)

/-- A plain http check against a health endpoint. -/
def sampleHttpCheck : CheckConfig :=
  { id := "ping", type := "http", url := some "https://example.com/health" }

/-- The check map entry `instanceId:checkId` for `sampleHttpCheck`. -/
def sampleCheckMap : List (String × CheckConfig) :=
  [("prod:ping", sampleHttpCheck)]

/-- A benign world: every strategy oracle succeeds. -/
def sampleWorld : WorldOracle :=
  { httpO := .response 200 none
    wssO := .opened
    journeyO := .completed true
    echoO :=
      { adminPasswordSet := true
        reg1 := { ok := true, status := 200, text := "" }
        ch1 := { ok := true, status := 200, text := "" }
        reg2 := { ok := true, status := 200, text := "" }
        ch2 := { ok := true, status := 200, text := "" }
        adminJoin := .joined, user2Join := .joined, user1Join := .joined
        echoReceived := true } }

/-- A wss check fixture. -/
def sampleWssCheck : CheckConfig :=
  { id := "ws", type := "wss", url := some "wss://example.com/ws" }

/-- Echo-check oracle in which both accounts provision fine, the admin join
succeeds, and then user2's join is rejected by a presence stanza of type
`error` (a policy denial). -/
def echoOraclePresenceError : EchoOracle :=
  { adminPasswordSet := true
    reg1 := { ok := true, status := 200, text := "" }
    ch1 := { ok := true, status := 200, text := "" }
    reg2 := { ok := true, status := 200, text := "" }
    ch2 := { ok := true, status := 200, text := "" }
    adminJoin := .joined
    user2Join := .presenceError "presence-error-stanza"
    user1Join := .joined
    echoReceived := true }

/-- Advanced-journey oracle in which every step up to and including the
participant removal succeeds, and Bob's rejoin attempt after removal
*succeeds* (the access-control regression the negative test is meant to
catch). -/
def advOracleRejoinSucceeds : AdvOracle :=
  { getBaseConfig := .ok "base-app-token"
    loginAdmin := .ok "owner-token"
    createApp := .ok ("app-1", "app-token")
    usersCount := 3
    signup := fun _ => .ok ()
    login := fun i =>
      .ok { id := toString i, token := "tok", xmppUsername := "u", xmppPassword := "p" }
    createTestChat := .ok "test-room"
    createValidationChat := .ok "validation-room"
    addMembersTest := .ok ()
    addMembersValidation := .ok ()
    xmppEnv := .ok ()
    bobJoinTest := .joined
    aliceJoinTest := .joined
    testMsgReceived := true
    bobJoinValidation := .joined
    aliceJoinValidation := .joined
    validationMsgReceived := true
    upload := .ok "https://files.example.com/journey.txt"
    mediaMsgReceived := true
    fileAccess := .ok ()
    removeBob := .ok ()
    bobRejoin := .joined }

/-- An http check with one asserting json rule and one capture-only rule. -/
def jsonAssertCheck : CheckConfig :=
  { id := "api", type := "http", url := some "https://example.com/api",
    expect := [.json "a.b" true none none, .json "c" false none (some "v")] }

/-- An http check with a single json rule that both asserts and captures. -/
def jsonCaptureCheck : CheckConfig :=
  { id := "api", type := "http", url := some "https://example.com/api",
    expect := [.json "a.b" true none (some "v")] }

/-- A parsed body in which `a.b` resolves to JSON `null`. -/
def captureBody : JsVal := .obj [("a", .obj [("b", .null)])]

/-- A wss check whose url is present but malformed: `new WebSocket` throws
synchronously on such input, and the config loader only checks that a wss
url is present, not that it is well-formed, so this configuration reaches
the strategy. -/
def malformedWssCheck : CheckConfig :=
  { id := "ws", type := "wss", url := some "http//bad" }

/-- A world in which the WebSocket constructor throws synchronously. -/
def ctorThrowWorld : WorldOracle :=
  { sampleWorld with wssCtorThrow := some "Invalid URL: http//bad" }

/-! # Theorems -/

/-- **C4.** For every key `k` and guarded operation `fn`: `withCheckLock k fn`
throws the `ConcurrencyConflict` error `CHECK_ALREADY_RUNNING` without
invoking `fn` exactly when `k` is currently held; otherwise it invokes `fn`
exactly once, propagates `fn`'s outcome (resolution or rejection alike), and
`k` is not held once the call completes. -/
theorem withCheckLock_spec {T : Type} (inFlight : List String) (key : String)
    (fn : FnOut T) :
    (isCheckLocked inFlight key = true →
      withCheckLock inFlight key fn = (.rejects (conflictError key), inFlight, 0))
    ∧ (isCheckLocked inFlight key = false →
      withCheckLock inFlight key fn = (fn, inFlight, 1)
        ∧ (withCheckLock inFlight key fn).2.1.contains key = false) := by
  unfold isCheckLocked withCheckLock
  constructor
  · intro h
    have h' : key ∈ inFlight := by simpa using h
    simp [h']
  · intro h
    have h' : key ∉ inFlight := by simpa using h
    simp [h', List.erase_cons_head]

/-- Witness for **C4** at concrete inputs: a held key rejects with the
conflict error and zero invocations; a free key runs the operation once. -/
theorem withCheckLock_spec_witness :
    withCheckLock ["prod:ping"] "prod:ping" (FnOut.resolves (0 : Nat))
        = (.rejects (conflictError "prod:ping"), ["prod:ping"], 0)
      ∧ withCheckLock ([] : List String) "prod:ping" (FnOut.resolves (0 : Nat))
        = (.resolves 0, [], 1) :=
  ⟨(withCheckLock_spec ["prod:ping"] "prod:ping" _).1 (by decide),
   ((withCheckLock_spec [] "prod:ping" _).2 (by decide)).1⟩

/-- **C9.** `ensureXmppUser` attempts registration first; registration
success completes provisioning via `register`; a registration failure that
looks like "already exists" (status 409 or text containing
conflict/already/exists) is followed by a password reset whose success
completes provisioning via `change_password`; any other registration failure
raises an error, as does a failing password reset; and the only endpoints any
path ever calls are `/register` and `/change_password` — never a delete or
unregister. -/
theorem ensureXmppUser_spec (user : String) (reg ch : ApiResp) :
    ((ensureXmppUser user reg ch).2.head? = some "/register")
    ∧ (∀ c ∈ (ensureXmppUser user reg ch).2, c = "/register" ∨ c = "/change_password")
    ∧ (reg.ok = true →
        ensureXmppUser user reg ch = (.ok .register, ["/register"]))
    ∧ (reg.ok = false → looksLikeAlreadyExists reg = false →
        (∃ e, (ensureXmppUser user reg ch).1 = .error e)
          ∧ (ensureXmppUser user reg ch).2 = ["/register"])
    ∧ (reg.ok = false → looksLikeAlreadyExists reg = true → ch.ok = true →
        ensureXmppUser user reg ch
          = (.ok .change_password, ["/register", "/change_password"]))
    ∧ (reg.ok = false → looksLikeAlreadyExists reg = true → ch.ok = false →
        (∃ e, (ensureXmppUser user reg ch).1 = .error e)
          ∧ (ensureXmppUser user reg ch).2 = ["/register", "/change_password"]) := by
  unfold ensureXmppUser
  by_cases hr : reg.ok <;> by_cases he : looksLikeAlreadyExists reg <;>
    by_cases hc : ch.ok <;>
    simp [hr, he, hc]

/-- Witness for **C9**: a fresh registration, and a 409-conflict registration
followed by a successful password reset. -/
theorem ensureXmppUser_spec_witness :
    ensureXmppUser "uptime_health_u1" { ok := true, status := 200, text := "" }
        { ok := true, status := 200, text := "" }
      = (.ok .register, ["/register"])
    ∧ ensureXmppUser "uptime_health_u1"
        { ok := false, status := 409, text := "Conflict: already registered" }
        { ok := true, status := 200, text := "" }
      = (.ok .change_password, ["/register", "/change_password"]) :=
  ⟨(ensureXmppUser_spec "uptime_health_u1" _ _).2.2.1 rfl,
   (ensureXmppUser_spec "uptime_health_u1" _ _).2.2.2.2.1 rfl (by decide) rfl⟩

/-- **C3** (failing-input evaluation). In the room-echo check, when the
user2 join is rejected by a presence stanza of type `error`, the execution
returns a failure result as expected, but the XMPP session opened for that
join is still connected when the check returns: `joinRoomByWs`'s
presence-error branch rejects after removing only the listener and timer
(no `xmpp.stop()`), and the caller's `finally` cannot stop a client whose
variable was never assigned.  The claim that every session is closed on
every exit path — including presence-error rejection — is therefore false
on the code. -/
theorem echoCheck_presenceError_leaksSession :
    runXmppMucEchoCheckFull echoOraclePresenceError
      = (echoFail { message := "XMPP_JOIN_ERROR(user2_join):presence-error-stanza" },
         [("admin_join_create_room", true), ("user2_join", false)])
    ∧ ((runXmppMucEchoCheckFull echoOraclePresenceError).2.any (fun s => !s.2)) = true := by
  constructor
  · rfl
  · rfl

/-- **C1** (failing-input evaluation). An advanced journey run in which every
step succeeds and the removed participant's rejoin attempt *succeeds*
(`bobRejoin = joined`) still reports `ok := true`: the
`throw new Error('Bob was able to rejoin after removal')` sits inside the
same `try` whose `catch (_e) {}` is meant to absorb the expected join
failure, so the deliberate failure signal is swallowed.  The claim that such
a run reports `ok:false` is therefore false on the code. -/
theorem advancedJourney_rejoinSuccess_reportsOk :
    (runJourneyAdvancedM advOracleRejoinSucceeds).ok = true
    ∧ "bob_join_denied" ∈ (runJourneyAdvancedM advOracleRejoinSucceeds).steps
    ∧ advOracleRejoinSucceeds.bobRejoin = JoinOutcome.joined := by
  refine ⟨rfl, ?_, rfl⟩
  decide

/-- **C8** (counterexample). On the transport-error branch of the wss check
the `error` handler clears the timer and settles the result but never calls
`ws.close()`: at this concrete input the close flag is `false`, so the claim
that the connection is closed on *every* branch — including transport
error — is false on the code. -/
theorem wssCheck_errorBranch_noClose :
    runWssCheckFull sampleWssCheck (.errorEvent "connect ECONNREFUSED")
      = ({ ok := false, durationMs := 0, errorText := some "connect ECONNREFUSED" },
         false) := rfl

/-- **C8** (amended). For every wss check with a url: `ws.close()` is called
before the result is returned on the successful-open and timeout branches
(with `ok:true` resp. `ok:false`/`"timeout"`), while the transport-error
branch settles with `ok:false` and the error text without the check issuing
any close call. -/
theorem wssCheck_close_on_open_and_timeout (check : CheckConfig) (u : String)
    (ev : WssEvent) (hurl : check.url = some u) (hu : u ≠ "") :
    (ev = .opened →
      runWssCheckFull check ev = ({ ok := true, durationMs := 0 }, true))
    ∧ (ev = .timeoutFired →
      runWssCheckFull check ev
        = ({ ok := false, durationMs := 0, errorText := some "timeout" }, true))
    ∧ (∀ msg, ev = .errorEvent msg →
      runWssCheckFull check ev
        = ({ ok := false, durationMs := 0, errorText := some msg }, false)) := by
  unfold runWssCheckFull
  rw [hurl]
  refine ⟨?_, ?_, ?_⟩
  · intro h; subst h; simp [hu]
  · intro h; subst h; simp [hu]
  · intro msg h; subst h; simp [hu]

/-- Witness for **C8** (amended) at concrete inputs: the open and timeout
branches both close the socket. -/
theorem wssCheck_close_on_open_and_timeout_witness :
    runWssCheckFull sampleWssCheck .opened = ({ ok := true, durationMs := 0 }, true)
    ∧ runWssCheckFull sampleWssCheck .timeoutFired
      = ({ ok := false, durationMs := 0, errorText := some "timeout" }, true) :=
  ⟨(wssCheck_close_on_open_and_timeout sampleWssCheck "wss://example.com/ws" .opened
      rfl (by decide)).1 rfl,
   (wssCheck_close_on_open_and_timeout sampleWssCheck "wss://example.com/ws" .timeoutFired
      rfl (by decide)).2.1 rfl⟩

/-- **C2** (counterexample). With the check's key currently held in the
RunLock, the manual-trigger handler still executes the check (execution
count 1), still writes one result record, and responds with the normal
inline result — no `ConcurrencyConflict`/"already running" signal exists in
the handler.  This falsifies the claim that the manual trigger runs through
the RunLock and surfaces an already-running condition. -/
theorem runCheckHandler_executesDespiteLock :
    isCheckLocked ["prod:ping"] "prod:ping" = true
    ∧ handleRunCheck sampleCheckMap "prod:ping" ["prod:ping"] sampleWorld
      = (.okJson "prod:ping"
           { ok := true, statusCode := some 200, durationMs := 0, details := some {} },
         ["prod:ping"], 1, 1) := by
  exact ⟨rfl, rfl⟩

/-- **C2** (amended). For every manual-trigger request: a blank id yields 422
with no execution and no write; an unknown id yields 404 with no execution
and no write; a known id is executed exactly once via `runCheck` with one
result written and the result returned inline — in every case independently
of, and without modifying, the RunLock in-flight state. -/
theorem runCheckHandler_spec (checkMap : List (String × CheckConfig))
    (body : String) (inFlight : List String) (w : WorldOracle) :
    (jsTrim body = "" →
      handleRunCheck checkMap body inFlight w
        = (.unprocessable "checkId is required", inFlight, 0, 0))
    ∧ (jsTrim body ≠ "" → lookupCheck checkMap (jsTrim body) = none →
      handleRunCheck checkMap body inFlight w
        = (.notFound "check not found", inFlight, 0, 0))
    ∧ (∀ chk, jsTrim body ≠ "" → lookupCheck checkMap (jsTrim body) = some chk →
      handleRunCheck checkMap body inFlight w
        = (.okJson (jsTrim body) (runCheck chk w), inFlight, 1, 1)) := by
  unfold handleRunCheck
  refine ⟨?_, ?_, ?_⟩
  · intro h; simp [h]
  · intro h hl; simp [h, hl]
  · intro chk h hl; simp [h, hl]

/-- Witness for **C2** (amended): a known check id executes once and writes
one record even while its key is held. -/
theorem runCheckHandler_spec_witness :
    handleRunCheck sampleCheckMap "prod:ping" ["prod:ping"] sampleWorld
      = (.okJson "prod:ping" (runCheck sampleHttpCheck sampleWorld),
         ["prod:ping"], 1, 1) :=
  (runCheckHandler_spec sampleCheckMap "prod:ping" ["prod:ping"] sampleWorld).2.2
    sampleHttpCheck (by decide) rfl

/-- One summary-loop iteration computes exactly the spec-side contribution
of that check, or-ed into the accumulator. -/
theorem summaryStep_spec (f w : Bool) (r : SummaryCheckRow) :
    summaryStep (f, w) r
      = (f || (specContribution r == Contribution.fail),
         w || (specContribution r == Contribution.warn)) := by
  rcases r with ⟨sev, last⟩
  cases last with
  | none =>
    cases h : (resolveSeverity sev == "optional") <;>
      simp [summaryStep, specContribution, h]
  | some run =>
    rcases run with ⟨ok, et⟩
    cases ok
    · cases h : (resolveSeverity sev == "optional")
      · cases hs : errTextSkipped et <;>
          simp [summaryStep, specContribution, h, hs]
      · simp [summaryStep, specContribution, h]
    · simp [summaryStep, specContribution]

/-- The summary fold from any accumulator: `hasFail` is "some check
contributes fail", `hasWarn` is "some check contributes warn". -/
theorem summaryFold_from (rows : List SummaryCheckRow) : ∀ f w : Bool,
    rows.foldl summaryStep (f, w)
      = (f || rows.any (fun r => specContribution r == Contribution.fail),
         w || rows.any (fun r => specContribution r == Contribution.warn)) := by
  induction rows with
  | nil => intro f w; simp
  | cons r rest ih =>
    intro f w
    simp only [List.foldl_cons, summaryStep_spec, ih, List.any_cons, Bool.or_assoc]

/-- **C7.** For every instance, the rollup computed by the summary handler is
exactly the spec's fold: red when some check's most recent state contributes
fail, else amber when some check contributes warn, else green — where a check
contributes warn when it has no stored result (unless optional), nothing when
an `ok:false` result belongs to an optional check, warn when the failure text
marks a skip (prefix `skipped:`), and fail for every other `ok:false`
result. -/
theorem instanceStatus_eq_specRollup (rows : List SummaryCheckRow) :
    instanceStatus rows = specRollupStatus rows := by
  unfold instanceStatus specRollupStatus summaryFold
  rw [summaryFold_from]
  simp

/-- Unfolding of `runHttpCheckFull` on a received response when a url is
present. -/
theorem runHttpCheckFull_response (check : CheckConfig) (u : String) (status : Int)
    (body : Option JsVal) (hurl : check.url = some u) (hu : u ≠ "") :
    runHttpCheckFull check (.response status body)
      = ({ ok := (check.expect.foldl
              (httpRuleStep status body
                (if (check.expect.filter isJsonRule).isEmpty then false else body.isSome))
              { ok := (200 ≤ status) && (status < 300), details := {} }).ok,
           statusCode := some status, durationMs := 0,
           details := some (check.expect.foldl
              (httpRuleStep status body
                (if (check.expect.filter isJsonRule).isEmpty then false else body.isSome))
              { ok := (200 ≤ status) && (status < 300), details := {} }).details },
         if (check.expect.filter isJsonRule).isEmpty then 0 else 1) := by
  unfold runHttpCheckFull runHttpTry
  rw [hurl]
  simp [hu]

/-- With a failed body parse, the rule loop keeps `details.jsonParse` at
`"failed"` once set. -/
theorem foldPF_jsonParse_preserved (status : Int) (rules : List ExpectRule) :
    ∀ s : HttpLoopState, s.details.jsonParse = some "failed" →
      ((rules.foldl (httpRuleStep status none false) s).details.jsonParse
        = some "failed") := by
  induction rules with
  | nil => intro s h; simpa using h
  | cons r rest ih =>
    intro s h
    rw [List.foldl_cons]
    apply ih
    cases r with
    | status_code exp => simpa [httpRuleStep] using h
    | json p ex eq cap => simp [httpRuleStep]

/-- With a failed body parse and at least one json rule, the rule loop sets
`details.jsonParse := "failed"`. -/
theorem foldPF_jsonParse_set (status : Int) (rules : List ExpectRule) :
    ∀ s : HttpLoopState, rules.filter isJsonRule ≠ [] →
      ((rules.foldl (httpRuleStep status none false) s).details.jsonParse
        = some "failed") := by
  induction rules with
  | nil => intro s h; simp at h
  | cons r rest ih =>
    intro s h
    rw [List.foldl_cons]
    cases r with
    | json p ex eq cap =>
      apply foldPF_jsonParse_preserved
      simp [httpRuleStep]
    | status_code exp =>
      apply ih
      simpa [List.filter_cons, isJsonRule] using h

/-- With a failed body parse, the rule loop never recovers a false `ok`. -/
theorem foldPF_ok_false_preserved (status : Int) (rules : List ExpectRule) :
    ∀ s : HttpLoopState, s.ok = false →
      (rules.foldl (httpRuleStep status none false) s).ok = false := by
  induction rules with
  | nil => intro s h; simpa using h
  | cons r rest ih =>
    intro s h
    rw [List.foldl_cons]
    apply ih
    cases r with
    | status_code exp => simp [httpRuleStep, h]
    | json p ex eq cap => by_cases ha : (ex || eq.isSome) = true <;> simp [httpRuleStep, ha, h]

/-- With a failed body parse, any json rule asserting `exists` or `equals`
forces the final `ok` to false. -/
theorem foldPF_ok_false_of_assert (status : Int) (rules : List ExpectRule) :
    ∀ s : HttpLoopState,
      (∃ p ex eq cap, ExpectRule.json p ex eq cap ∈ rules ∧ (ex = true ∨ eq ≠ none)) →
      (rules.foldl (httpRuleStep status none false) s).ok = false := by
  induction rules with
  | nil => intro s h; simp at h
  | cons r rest ih =>
    intro s h
    obtain ⟨p, ex, eq, cap, hmem, hassert⟩ := h
    rw [List.foldl_cons]
    rcases List.mem_cons.mp hmem with hhead | htail
    · subst hhead
      apply foldPF_ok_false_preserved
      have ha : (ex || eq.isSome) = true := by
        rcases hassert with h1 | h1
        · simp [h1]
        · simp [Option.isSome_iff_ne_none, h1]
      simp [httpRuleStep, ha]
    · exact ih _ ⟨p, ex, eq, cap, htail, hassert⟩

/-- With a failed body parse, the rule loop never creates a captures map. -/
theorem foldPF_captures_none (status : Int) (rules : List ExpectRule) :
    ∀ s : HttpLoopState, s.details.captures = none →
      (rules.foldl (httpRuleStep status none false) s).details.captures = none := by
  induction rules with
  | nil => intro s h; simpa using h
  | cons r rest ih =>
    intro s h
    rw [List.foldl_cons]
    apply ih
    cases r with
    | status_code exp => simpa [httpRuleStep] using h
    | json p ex eq cap => simpa [httpRuleStep] using h

/-- With a failed body parse, dropping the capture-only json rules does not
change how the loop evolves `ok`. -/
theorem foldPF_ok_drop_captureOnly (status : Int) (rules : List ExpectRule) :
    ∀ s₁ s₂ : HttpLoopState, s₁.ok = s₂.ok →
      (rules.foldl (httpRuleStep status none false) s₁).ok
        = ((rules.filter (fun r => !isCaptureOnlyJson r)).foldl
            (httpRuleStep status none false) s₂).ok := by
  induction rules with
  | nil => intro s₁ s₂ h; simpa using h
  | cons r rest ih =>
    intro s₁ s₂ h
    cases hco : isCaptureOnlyJson r
    · have hkeep : (r :: rest).filter (fun r => !isCaptureOnlyJson r)
          = r :: rest.filter (fun r => !isCaptureOnlyJson r) := by
        simp [List.filter_cons, hco]
      rw [hkeep, List.foldl_cons, List.foldl_cons]
      apply ih
      cases r with
      | status_code exp => simp [httpRuleStep, h]
      | json p ex eq cap =>
        by_cases ha : (ex || eq.isSome) = true <;> simp [httpRuleStep, ha, h]
    · have hdrop : (r :: rest).filter (fun r => !isCaptureOnlyJson r)
          = rest.filter (fun r => !isCaptureOnlyJson r) := by
        simp [List.filter_cons, hco]
      rw [hdrop, List.foldl_cons]
      apply ih
      cases r with
      | status_code exp => simp [isCaptureOnlyJson] at hco
      | json p ex eq cap =>
        cases ex
        · cases eq with
          | none => simp [httpRuleStep, h]
          | some q => simp [isCaptureOnlyJson] at hco
        · simp [isCaptureOnlyJson] at hco

/-- **C6.** For every http check whose response body fails to parse as JSON
(and which has at least one json rule, so the parse is attempted): the result
carries `details.jsonParse = "failed"`; if any json rule asserts `exists` or
`equals` the result's `ok` is false; no `details.captures` entry is created;
the final `ok` is unchanged if the capture-only json rules are removed; and
the body is parsed at most once, shared across all json rules. -/
theorem httpCheck_jsonParseFailure (check : CheckConfig) (u : String) (status : Int)
    (hurl : check.url = some u) (hu : u ≠ "")
    (hjson : check.expect.filter isJsonRule ≠ []) :
    ((runHttpCheckFull check (.response status none)).1.details.map Details.jsonParse
        = some (some "failed"))
    ∧ ((∃ p ex eq cap, ExpectRule.json p ex eq cap ∈ check.expect ∧ (ex = true ∨ eq ≠ none)) →
        (runHttpCheckFull check (.response status none)).1.ok = false)
    ∧ ((runHttpCheckFull check (.response status none)).1.details.map Details.captures
        = some none)
    ∧ ((runHttpCheckFull check (.response status none)).1.ok
        = (runHttpCheckFull
            { check with expect := check.expect.filter (fun r => !isCaptureOnlyJson r) }
            (.response status none)).1.ok)
    ∧ (runHttpCheckFull check (.response status none)).2 ≤ 1 := by
  have hempty : (check.expect.filter isJsonRule).isEmpty = false := by
    cases hF : check.expect.filter isJsonRule with
    | nil => exact absurd hF hjson
    | cons a l => rfl
  rw [runHttpCheckFull_response check u status none hurl hu]
  rw [runHttpCheckFull_response _ u status none (by simpa using hurl) hu]
  simp only [hempty, Option.isSome_none, Bool.false_eq_true, if_false, ite_self,
    Option.map_some]
  refine ⟨?_, ?_, ?_, ?_, ?_⟩
  · simp only [Option.map_some']
    rw [foldPF_jsonParse_set status check.expect _ hjson]
  · intro h
    exact foldPF_ok_false_of_assert status check.expect _ h
  · simp only [Option.map_some']
    rw [foldPF_captures_none status check.expect _ rfl]
  · exact foldPF_ok_drop_captureOnly status check.expect _ _ rfl
  · simp

/-- Witness for **C6**: a check with one asserting and one capture-only json
rule against an unparsable body fails and reports the parse failure. -/
theorem httpCheck_jsonParseFailure_witness :
    (runHttpCheckFull jsonAssertCheck (.response 200 none)).1.ok = false
    ∧ (runHttpCheckFull jsonAssertCheck (.response 200 none)).1.details.map
        Details.jsonParse = some (some "failed") :=
  ⟨(httpCheck_jsonParseFailure jsonAssertCheck "https://example.com/api" 200 rfl
      (by decide) (by decide)).2.1 ⟨"a.b", true, none, none, by decide, Or.inl rfl⟩,
   (httpCheck_jsonParseFailure jsonAssertCheck "https://example.com/api" 200 rfl
      (by decide) (by decide)).1⟩

/-- Membership in `setAssoc l k v`: the written pair or an original pair. -/
theorem setAssoc_mem {α : Type} (l : List (String × α)) (k : String) (v : α) :
    ∀ x ∈ setAssoc l k v, x = (k, v) ∨ x ∈ l := by
  induction l with
  | nil =>
    intro x hx
    simp [setAssoc] at hx
    exact Or.inl hx
  | cons p rest ih =>
    rcases p with ⟨k1, v1⟩
    intro x hx
    simp only [setAssoc] at hx
    by_cases h : (k1 == k) = true
    · rw [if_pos h] at hx
      rcases List.mem_cons.mp hx with h1 | h1
      · exact Or.inl h1
      · exact Or.inr (List.mem_cons_of_mem _ h1)
    · rw [if_neg h] at hx
      rcases List.mem_cons.mp hx with h1 | h1
      · exact Or.inr (h1 ▸ List.mem_cons_self _ _)
      · rcases ih x h1 with h2 | h2
        · exact Or.inl h2
        · exact Or.inr (List.mem_cons_of_mem _ h2)

/-- Looking up the key just written. -/
theorem lookupAssoc_setAssoc_self {α : Type} (l : List (String × α)) (k : String)
    (v : α) : lookupAssoc (setAssoc l k v) k = some v := by
  induction l with
  | nil => simp [setAssoc, lookupAssoc]
  | cons p rest ih =>
    rcases p with ⟨k1, v1⟩
    by_cases h : (k1 == k) = true
    · simp [setAssoc, lookupAssoc, h]
    · simp only [setAssoc, if_neg h]
      simpa [lookupAssoc, List.find?_cons, h] using ih

/-- Writing a different key does not change a lookup. -/
theorem lookupAssoc_setAssoc_other {α : Type} (l : List (String × α))
    (kW k : String) (v : α) (h : (kW == k) = false) :
    lookupAssoc (setAssoc l kW v) k = lookupAssoc l k := by
  induction l with
  | nil => simp [setAssoc, lookupAssoc, h]
  | cons p rest ih =>
    rcases p with ⟨k1, v1⟩
    by_cases h1 : (k1 == kW) = true
    · have hk1 : k1 = kW := by simpa using h1
      subst hk1
      simp [setAssoc, lookupAssoc, h]
    · simp only [setAssoc, if_neg h1]
      by_cases h2 : (k1 == k) = true
      · simp [lookupAssoc, List.find?_cons, h2]
      · simpa [lookupAssoc, List.find?_cons, h2] using ih

/-- A nullish path value collapses to JSON `null` under `?? null`. -/
theorem getD_null_of_isNullish (o : Option JsVal) (h : isNullish o = true) :
    o.getD JsVal.null = JsVal.null := by
  cases o with
  | none => rfl
  | some v => cases v <;> first | rfl | simp [isNullish] at h

/-- With a parsed body, once some json rule carrying `captureAs := k` (with
nonempty `k`) appears in the remaining rules — or `k` is already captured —
the final captures map exists and contains `k`. -/
theorem foldT_capture_exists (status : Int) (j : JsVal) (k : String) (hk : k ≠ "")
    (rules : List ExpectRule) :
    ∀ s : HttpLoopState,
      ((∃ p ex eq, ExpectRule.json p ex eq (some k) ∈ rules)
        ∨ (∃ l, s.details.captures = some l ∧ (lookupAssoc l k).isSome = true)) →
      ∃ l, (rules.foldl (httpRuleStep status (some j) true) s).details.captures = some l
        ∧ (lookupAssoc l k).isSome = true := by
  induction rules with
  | nil =>
    intro s h
    rcases h with ⟨p, ex, eq, hmem⟩ | h
    · simp at hmem
    · simpa using h
  | cons r rest ih =>
    intro s h
    rw [List.foldl_cons]
    apply ih
    rcases h with ⟨p, ex, eq, hmem⟩ | ⟨l, hl, hs⟩
    · rcases List.mem_cons.mp hmem with hhead | htail
      · right
        rw [← hhead]
        refine ⟨setAssoc (s.details.captures.getD []) k
            (some ((getJsonPath j p).getD JsVal.null)), ?_, ?_⟩
        · simp [httpRuleStep, hk]
        · rw [lookupAssoc_setAssoc_self]
          rfl
      · exact Or.inl ⟨p, ex, eq, htail⟩
    · right
      cases r with
      | status_code exp => exact ⟨l, by simpa [httpRuleStep] using hl, hs⟩
      | json p ex eq cap =>
        cases cap with
        | none => exact ⟨l, by simpa [httpRuleStep] using hl, hs⟩
        | some k2 =>
          by_cases hk2 : k2 = ""
          · exact ⟨l, by simpa [httpRuleStep, hk2] using hl, hs⟩
          · by_cases heq : (k2 == k) = true
            · refine ⟨setAssoc (s.details.captures.getD []) k2
                  (some ((getJsonPath j p).getD JsVal.null)), ?_, ?_⟩
              · simp [httpRuleStep, hk2]
              · have hkk : k2 = k := by simpa using heq
                rw [hkk, lookupAssoc_setAssoc_self]
                rfl
            · refine ⟨setAssoc (s.details.captures.getD []) k2
                  (some ((getJsonPath j p).getD JsVal.null)), ?_, ?_⟩
              · simp [httpRuleStep, hk2]
              · rw [lookupAssoc_setAssoc_other _ _ _ _ (by simpa using heq), hl]
                exact hs

/-- With a parsed body, every value the loop ever stores in the captures map
is a JSON value (`value ?? null`), never JavaScript `undefined`. -/
theorem foldT_captures_defined (status : Int) (j : JsVal) (rules : List ExpectRule) :
    ∀ s : HttpLoopState,
      (∀ x ∈ (s.details.captures.getD []), x.2 ≠ none) →
      ∀ x ∈ ((rules.foldl (httpRuleStep status (some j) true) s).details.captures.getD []),
        x.2 ≠ none := by
  induction rules with
  | nil => intro s h; simpa using h
  | cons r rest ih =>
    intro s h
    rw [List.foldl_cons]
    apply ih
    cases r with
    | status_code exp => simpa [httpRuleStep] using h
    | json p ex eq cap =>
      cases cap with
      | none => simpa [httpRuleStep] using h
      | some k2 =>
        by_cases hk2 : k2 = ""
        · simpa [httpRuleStep, hk2] using h
        · intro x hx
          have hx' : x ∈ setAssoc (s.details.captures.getD []) k2
              (some ((getJsonPath j p).getD JsVal.null)) := by
            simpa [httpRuleStep, hk2] using hx
          rcases setAssoc_mem _ _ _ x hx' with h1 | h1
          · rw [h1]; simp
          · exact h x h1

/-- With a parsed body, if every rule capturing key `k` has a nullish path
value, the captured value for `k` can only ever be JSON `null`. -/
theorem foldT_capture_null (status : Int) (j : JsVal) (k : String)
    (rules : List ExpectRule)
    (hnull : ∀ p ex eq, ExpectRule.json p ex eq (some k) ∈ rules →
      isNullish (getJsonPath j p) = true) :
    ∀ s : HttpLoopState,
      (lookupAssoc (s.details.captures.getD []) k = none
        ∨ lookupAssoc (s.details.captures.getD []) k = some (some JsVal.null)) →
      (lookupAssoc ((rules.foldl (httpRuleStep status (some j) true) s).details.captures.getD []) k = none
        ∨ lookupAssoc ((rules.foldl (httpRuleStep status (some j) true) s).details.captures.getD []) k
            = some (some JsVal.null)) := by
  induction rules with
  | nil => intro s h; simpa using h
  | cons r rest ih =>
    intro s h
    rw [List.foldl_cons]
    have hnull' : ∀ p ex eq, ExpectRule.json p ex eq (some k) ∈ rest →
        isNullish (getJsonPath j p) = true :=
      fun p ex eq hmem => hnull p ex eq (List.mem_cons_of_mem _ hmem)
    apply ih hnull'
    cases r with
    | status_code exp => simpa [httpRuleStep] using h
    | json p ex eq cap =>
      cases cap with
      | none => simpa [httpRuleStep] using h
      | some k2 =>
        by_cases hk2 : k2 = ""
        · simpa [httpRuleStep, hk2] using h
        · by_cases heq : (k2 == k) = true
          · right
            have hkk : k2 = k := by simpa using heq
            subst hkk
            have hpnull : isNullish (getJsonPath j p) = true :=
              hnull p ex eq (List.mem_cons_self _ _)
            have hval : (getJsonPath j p).getD JsVal.null = JsVal.null :=
              getD_null_of_isNullish _ hpnull
            simp [httpRuleStep, hk2, hval, lookupAssoc_setAssoc_self]
          · have hne : (k2 == k) = false := by simpa using heq
            simp only [httpRuleStep]
            rcases h with h | h
            · left
              simpa [hk2, lookupAssoc_setAssoc_other _ _ _ _ hne] using h
            · right
              simpa [hk2, lookupAssoc_setAssoc_other _ _ _ _ hne] using h

/-- **C10.** For every http check with a successfully parsed body and a json
rule carrying `captureAs := k` (nonempty): the final result has a captures
map containing `k` — even when that rule's `exists`/`equals` assertions fail
(the capture write is unconditional on the assertion outcome) — every value
in the captures map is a JSON value, never JavaScript `undefined`; and when
every rule capturing `k` resolves its dot-path to `undefined` or `null`, the
recorded value for `k` is JSON `null`. -/
theorem httpCheck_captureAlwaysRecorded (check : CheckConfig) (u : String)
    (status : Int) (j : JsVal) (p : String) (ex : Bool) (eq : Option String)
    (k : String) (hurl : check.url = some u) (hu : u ≠ "")
    (hrule : ExpectRule.json p ex eq (some k) ∈ check.expect) (hk : k ≠ "") :
    ∃ caps,
      (runHttpCheckFull check (.response status (some j))).1.details.map
          Details.captures = some (some caps)
      ∧ (lookupAssoc caps k).isSome = true
      ∧ (∀ x ∈ caps, x.2 ≠ none)
      ∧ ((∀ pp exx qq, ExpectRule.json pp exx qq (some k) ∈ check.expect →
            isNullish (getJsonPath j pp) = true) →
          lookupAssoc caps k = some (some JsVal.null)) := by
  have hjsonmem : ExpectRule.json p ex eq (some k) ∈ check.expect.filter isJsonRule :=
    List.mem_filter.mpr ⟨hrule, rfl⟩
  have hempty : (check.expect.filter isJsonRule).isEmpty = false := by
    cases hF : check.expect.filter isJsonRule with
    | nil => rw [hF] at hjsonmem; simp at hjsonmem
    | cons a l => rfl
  rw [runHttpCheckFull_response check u status (some j) hurl hu]
  simp only [hempty, Bool.false_eq_true, if_false, Option.isSome_some, Option.map_some']
  obtain ⟨caps, hcaps, hsome⟩ :=
    foldT_capture_exists status j k hk check.expect
      { ok := (200 ≤ status) && (status < 300), details := {} }
      (Or.inl ⟨p, ex, eq, hrule⟩)
  refine ⟨caps, by rw [hcaps], hsome, ?_, ?_⟩
  · intro x hx
    have hdef := foldT_captures_defined status j check.expect
      { ok := (200 ≤ status) && (status < 300), details := {} } (by simp)
    rw [hcaps] at hdef
    simp only [Option.getD_some] at hdef
    exact hdef x hx
  · intro hnull
    have h4 := foldT_capture_null status j k check.expect
      (fun pp exx qq hm => hnull pp exx qq hm)
      { ok := (200 ≤ status) && (status < 300), details := {} } (by simp [lookupAssoc])
    rw [hcaps] at h4
    simp only [Option.getD_some] at h4
    rcases h4 with h4 | h4
    · rw [h4] at hsome
      simp at hsome
    · exact h4

/-- Witness for **C10**: a rule whose `exists` assertion fails (the path
resolves to JSON `null`, so the check's `ok` is false) still records the
capture, and records it as `null`. -/
theorem httpCheck_captureAlwaysRecorded_witness :
    (∃ caps,
      (runHttpCheckFull jsonCaptureCheck (.response 200 (some captureBody))).1.details.map
          Details.captures = some (some caps)
      ∧ (lookupAssoc caps "v").isSome = true
      ∧ (∀ x ∈ caps, x.2 ≠ none)
      ∧ ((∀ pp exx qq, ExpectRule.json pp exx qq (some "v") ∈ jsonCaptureCheck.expect →
            isNullish (getJsonPath captureBody pp) = true) →
          lookupAssoc caps "v" = some (some JsVal.null)))
    ∧ (runHttpCheckFull jsonCaptureCheck (.response 200 (some captureBody))).1.ok = false :=
  ⟨httpCheck_captureAlwaysRecorded jsonCaptureCheck "https://example.com/api" 200
      captureBody "a.b" true none "v" rfl (by decide) (by decide) (by decide),
   by rfl⟩

/-- The faithful executor agrees with the total dispatch whenever the wss
constructor did not throw (in particular for every non-wss check): on those
worlds every strategy resolves with the `runCheckWithOpts` result. -/
theorem runCheckWithOptsE_agrees (check : CheckConfig) (w : WorldOracle)
    (h : check.type ≠ "wss" ∨ w.wssCtorThrow = none) :
    runCheckWithOptsE check w = .ok (runCheckWithOpts check w) := by
  unfold runCheckWithOptsE runCheckWithOpts
  by_cases ht : check.type = "wss"
  · rcases h with h | h
    · exact absurd ht h
    · simp only [ht]
      unfold runWssCheckE runWssCheck
      cases hurl : check.url with
      | none => simp [hurl, runWssCheckFull]
      | some u =>
        by_cases hu : u = ""
        · simp [hurl, hu, runWssCheckFull]
        · simp [hurl, hu, h]
  · by_cases h1 : check.type = "http" <;> by_cases h2 : check.type = "journey" <;>
      by_cases h3 : check.type = "xmpp_muc_echo" <;> simp [ht, h1, h2, h3]

/-- **C5** (failing-input evaluation).  A wss check whose url is present but
malformed reaches `new WebSocket(url, …)`, which throws synchronously; the
throw happens inside the `Promise` executor, rejecting the promise, and
neither `runWssCheck` nor the executor dispatch has a `catch` — so the
invalid-input failure is never encoded into a `CheckRunResult` and the
rejection escapes the executor boundary to the scheduler or the
manual-trigger handler.  The claim's guarantee (every strategy-level
failure, including invalid input, is caught and encoded in `ok`/`errorText`)
is the spec's stated propagation policy; the wss strategy's missing guard
violates it. -/
theorem runCheck_wssCtorThrow_escapes :
    runCheckWithOptsE malformedWssCheck ctorThrowWorld
      = .error { message := "Invalid URL: http//bad" }
    ∧ ∀ r : CheckRunResult,
        runCheckWithOptsE malformedWssCheck ctorThrowWorld ≠ .ok r := by
  refine ⟨rfl, ?_⟩
  intro r hr
  rw [show runCheckWithOptsE malformedWssCheck ctorThrowWorld
      = .error { message := "Invalid URL: http//bad" } from rfl] at hr
  exact Except.noConfusion hr

end EthoraUptime
